import Mathlib

/-!
# Verification of the sleeper-agent MCP tool/prompt dispatch core

Shallow embedding of the protocol-facing dispatch layer of the
sleeper-agent repository: the rate-limited upstream client
(`SleeperMCPServer.enforceRateLimit` / `makeApiRequest`), the
roster/matchup enrichment, the zod argument schemas, the two
line-pipe transport variants (`FilteredStdioTransport`), the
`get_player` local lookup and the prompt registry.

JSON values are modelled by an inductive `Json` type; JavaScript
machine numbers are modelled by `ℚ` (the model has no NaN/Infinity);
timestamps (`Date.now()`) by `Int` milliseconds.
-/

namespace Sleeper

/-- A JSON value, as produced by `JSON.parse`.  Object fields are kept as an
association list in JS enumeration order. -/
inductive Json where
  | null
  | bool (b : Bool)
  | num (q : ℚ)
  | str (s : String)
  | arr (elems : List Json)
  | obj (fields : List (String × Json))
deriving Inhabited

/-- JS truthiness of a property-read result (`none` = `undefined`).
`undefined`, `null`, `false`, `0`, `""` are falsy; objects and arrays
(even empty ones) are truthy.  The model's numbers have no NaN. -/
def jsTruthy : Option Json → Bool
  | none => false
  | some .null => false
  | some (.bool b) => b
  | some (.num q) => q ≠ 0
  | some (.str s) => s ≠ ""
  | some (.arr _) => true
  | some (.obj _) => true

/-- Property read on an object's field list (`obj.k`); `none` = `undefined`. -/
def getField (fields : List (String × Json)) (k : String) : Option Json :=
  List.lookup k fields

/-! ## RateLimiter (`SleeperMCPServer.enforceRateLimit`)

```
const now = Date.now();
const timeSinceLastRequest = now - this.lastRequestTime;
if (timeSinceLastRequest < this.config.rateLimitDelay) {
  await new Promise(resolve =>
    setTimeout(resolve, this.config.rateLimitDelay - timeSinceLastRequest));
}
this.lastRequestTime = Date.now();
```
Timestamps are `Date.now()` milliseconds, modelled as `Int`.  The clock is
assumed monotone and `setTimeout(ms)` resumes no earlier than `ms`
milliseconds after it was armed. -/

/-- `timeSinceLastRequest` as computed by `enforceRateLimit`. -/
def timeSinceLastRequest (lastRequestTime now : Int) : Int :=
  now - lastRequestTime

/-- The number of milliseconds `enforceRateLimit` sleeps: the
`setTimeout` duration when the interval has not yet elapsed, `0`
(no `await` at all) otherwise. -/
def rateSleepMs (delay lastRequestTime now : Int) : Int :=
  if timeSinceLastRequest lastRequestTime now < delay then
    delay - timeSinceLastRequest lastRequestTime now
  else 0

/-- One completed `enforceRateLimit` call, observed through its two
`Date.now()` readings: `now` (read at the check) and `stamp` (the value
written to `lastRequestTime` just before the call returns). -/
structure RateCall where
  now : Int
  stamp : Int
deriving DecidableEq

/-- Timer/clock semantics of one call given the `lastRequestTime` it read:
the second `Date.now()` reading happens after the (possibly zero) sleep, so
it is at least `now + rateSleepMs`. -/
def RateCallOk (delay lastRequestTime : Int) (c : RateCall) : Prop :=
  c.now + rateSleepMs delay lastRequestTime c.now ≤ c.stamp

/-- A sequence of completed, non-overlapping calls through the limiter,
threading the `lastRequestTime` field: each call reads the previous call's
stamp as its `lastRequestTime`. -/
def RateRunOk (delay : Int) : Int → List RateCall → Prop
  | _, [] => True
  | last, c :: cs => RateCallOk delay last c ∧ RateRunOk delay c.stamp cs

instance (delay last : Int) (c : RateCall) : Decidable (RateCallOk delay last c) := by
  unfold RateCallOk; infer_instance

instance (delay : Int) : ∀ (last : Int) (cs : List RateCall),
    Decidable (RateRunOk delay last cs)
  | _, [] => by unfold RateRunOk; infer_instance
  | last, c :: cs =>
    have : Decidable (RateRunOk delay c.stamp cs) := instDecidableRateRunOk delay c.stamp cs
    by unfold RateRunOk; infer_instance

/-! ### Interleaved semantics of `enforceRateLimit`

Under the JS event loop, an `async` function runs synchronously until its
first `await`.  `enforceRateLimit` therefore executes as:
* if `timeSinceLastRequest ≥ delay`: the whole body — both `Date.now()`
  reads, the check and the store to `lastRequestTime` — is one atomic block
  (the `if` body with its `await` is skipped);
* otherwise: one atomic block up to arming the `setTimeout` (reading `now`
  and the shared `lastRequestTime`), a suspension while the timer runs
  (other logical callers may run here), then a second atomic block reading
  `Date.now()` and storing it to `lastRequestTime`. -/

/-- Atomic events of interleaved `enforceRateLimit` calls. -/
inductive RLEvent where
  /-- A call that found the interval already elapsed: no `await`, the check
  and the stamp happen atomically (`now`, `t` are its two clock reads). -/
  | atomicCall (caller : ℕ) (now t : Int)
  /-- The block up to the `await`: reads `now`, reads the shared
  `lastRequestTime`, computes the sleep and arms the timer. -/
  | check (caller : ℕ) (now : Int)
  /-- The block after the timer fires: reads `t = Date.now()` and writes it
  to the shared `lastRequestTime`. -/
  | stampEv (caller : ℕ) (t : Int)
deriving DecidableEq

/-- Shared state of the interleaved semantics: the shared
`lastRequestTime`, the set of callers suspended at the timer (with the
earliest instant their timer can fire), and the last clock reading
(monotonicity of `Date.now()`). -/
structure RLState where
  last : Int
  waiting : List (ℕ × Int)
  clock : Int
deriving DecidableEq

/-- One step of the interleaved semantics; `none` when the event is not
enabled (guards: clock monotonicity, timer duration, one pending timer per
caller). -/
def RLStep (delay : Int) (s : RLState) : RLEvent → Option RLState
  | .atomicCall c now t =>
    if s.clock ≤ now ∧ now ≤ t ∧ (List.lookup c s.waiting).isNone ∧
        delay ≤ timeSinceLastRequest s.last now then
      some ⟨t, s.waiting, t⟩
    else none
  | .check c now =>
    if s.clock ≤ now ∧ (List.lookup c s.waiting).isNone ∧
        timeSinceLastRequest s.last now < delay then
      some ⟨s.last, (c, now + rateSleepMs delay s.last now) :: s.waiting, now⟩
    else none
  | .stampEv c t =>
    match List.lookup c s.waiting with
    | some ready =>
      if s.clock ≤ t ∧ ready ≤ t then
        some ⟨t, s.waiting.filter (fun p => p.1 ≠ c), t⟩
      else none
    | none => none

/-- Run a whole interleaved schedule; `none` if any event is not enabled. -/
def RLRun (delay : Int) (s : RLState) : List RLEvent → Option RLState
  | [] => some s
  | e :: es => match RLStep delay s e with
    | some s' => RLRun delay s' es
    | none => none

/-- The timestamps stamped into `lastRequestTime` (one per completed call),
in the order the calls completed. -/
def traceStamps : List RLEvent → List Int
  | [] => []
  | .atomicCall _ _ t :: es => t :: traceStamps es
  | .stampEv _ t :: es => t :: traceStamps es
  | .check _ _ :: es => traceStamps es

/-- A concrete interleaved schedule of two concurrent callers: both pass
the interval check (reading the same stale `lastRequestTime = 940`) before
either stamps. -/
def rlBadTrace : List RLEvent :=
  [.check 0 1000, .check 1 1010, .stampEv 0 1060, .stampEv 1 1061]

/-! ## Player table and enrichment (part_009, `get_league_rosters` /
`get_league_matchups` handlers) -/

/-- A record of the bundled static player table
`sleeper_players_def.json`.  The table is bundled data, not among the
sources; per the spec (§3, PlayerRecord) a record carries `player_id`,
`full_name`, `number`, `weight`, `height`, `age`, `fantasy_positions`.
Only `player_id` and `full_name` are read by the code; remaining fields
are kept opaquely in `rest`.  `full_name` is `Option`al because the
offline preprocessing step copies a field only when present. -/
structure PlayerRec where
  player_id : String
  full_name : Option String
  rest : List (String × Json)

/-- The player table: a JSON object keyed by player id, fields in JS
enumeration order. -/
abbrev PlayerTable := List (String × PlayerRec)

/-- `getPlayerName` (part_009 lines 207–214 and 260–267):
```
const player = (sleeper_players_json_def as any)[playerId];
if (player && player.full_name) { return player.full_name; }
return playerId;
```
A record object is always truthy; `player.full_name` is truthy iff it is
a nonempty string (`full_name` values in the dataset are strings). -/
def getPlayerName (table : PlayerTable) (playerId : String) : String :=
  match List.lookup playerId table with
  | some p =>
    match p.full_name with
    | some s => if s = "" then playerId else s
    | none => playerId
  | none => playerId

/-- Tables whose records all carry a nonempty `full_name` — what the spec
asserts of the bundled table (every PlayerRecord has a `full_name`;
defense/special-teams identifiers have no record at all). -/
def wfTable (table : PlayerTable) : Prop :=
  ∀ kv ∈ table, kv.2.full_name ≠ none ∧ kv.2.full_name ≠ some ""

instance (table : PlayerTable) : Decidable (wfTable table) := by
  unfold wfTable; infer_instance

/-- Modelled from the spec: the bundled `sleeper_players_def.json` table
is data outside the sources; the spec's test properties fix the entry
`"4046" ↦ full_name "Patrick Mahomes"`.  One-entry sample table used by
the concrete witnesses. -/
def sampleTable : PlayerTable :=
  [("4046", { player_id := "4046", full_name := some "Patrick Mahomes",
              rest := [] })]

/-- A roster payload from `/league/{id}/rosters`, projected onto the
fields the transformation reads.  `players`, `starters`, `keepers` are
arrays of player-id strings per the upstream API; `none` models an absent
or `null` (falsy) field, which the code's `if (transformed.players)`
leaves untouched — note an *empty* array is truthy in JS and is mapped
(to an empty array), hence `some []` models it.  All remaining fields are
held opaquely in `rest`. -/
structure Roster where
  players : Option (List String)
  starters : Option (List String)
  keepers : Option (List String)
  rest : List (String × Json)

/-- The `get_league_rosters` transformation of one roster (part_009 lines
217–242): `{...roster}` shallow copy, then each of `players`, `starters`,
`keepers`, when truthy, is replaced by its image under `getPlayerName`. -/
def transformRoster (table : PlayerTable) (roster : Roster) : Roster :=
  { roster with
    players := roster.players.map (List.map (getPlayerName table)),
    starters := roster.starters.map (List.map (getPlayerName table)),
    keepers := roster.keepers.map (List.map (getPlayerName table)) }

/-- `data.map(roster => ...)` over the upstream response. -/
def transformRosters (table : PlayerTable) (data : List Roster) :
    List Roster :=
  data.map (transformRoster table)

/-- The spec's wording of the lookup (§4.3): "each identifier replaced by
the looked-up `full_name` if present in PlayerRecord, else left as the
original identifier". -/
def specLookupName (table : PlayerTable) (playerId : String) : String :=
  match List.lookup playerId table with
  | some p => p.full_name.getD playerId
  | none => playerId

/-- A `starters_points` value: the upstream positional array, or the
object keyed by resolved player name that enrichment builds. -/
inductive PointsField where
  | positional (pts : List ℚ)
  | named (pts : List (String × ℚ))
deriving DecidableEq

/-- A matchup payload from `/league/{id}/matchups/{week}`, projected onto
the fields the transformation reads: `starters_points` is the upstream
positional array (parallel to `starters`), `players_points` the upstream
object keyed by player id, in enumeration order.  `none` models an
absent/`null` field. -/
structure Matchup where
  starters : Option (List String)
  players : Option (List String)
  starters_points : Option (List ℚ)
  players_points : Option (List (String × ℚ))
  rest : List (String × Json)

/-- A matchup after enrichment (`starters_points` may now be the object
keyed by resolved player name). -/
structure EnrichedMatchup where
  starters : Option (List String)
  players : Option (List String)
  starters_points : Option PointsField
  players_points : Option (List (String × ℚ))
  rest : List (String × Json)

/-- JS object property assignment `o[k] = v` on an object kept in
enumeration order: overwrites in place when the key exists, appends
otherwise.  (JS enumerates non-negative-integer-like keys first; the
theorems below only inspect the key→value mapping, never its order.) -/
def assignField : List (String × ℚ) → String → ℚ → List (String × ℚ)
  | [], k, v => [(k, v)]
  | (k', v') :: rest, k, v =>
    if k' = k then (k, v) :: rest else (k', v') :: assignField rest k v

/-- The `startersWithPoints` object built by the matchup transformation
(part_009 lines 293–298):
```
const startersWithPoints: any = {};
originalStarters.forEach((playerId, index) => {
  const playerName = getPlayerName(playerId);
  const points = transformed.starters_points[index] || 0;
  startersWithPoints[playerName] = points;
});
```
`pts[index] || 0` coincides with `pts.getD index 0`: out of range gives
`undefined || 0 = 0`, and the only falsy in-range number is `0` itself. -/
def buildStartersWithPoints (table : PlayerTable)
    (originalStarters : List String) (pts : List ℚ) : List (String × ℚ) :=
  originalStarters.enum.foldl
    (fun acc ip => assignField acc (getPlayerName table ip.2)
      (pts.getD ip.1 0)) []

/-- The `newPlayersPoints` object (part_009 lines 304–309): keys of
`players_points` rewritten through `getPlayerName`, values preserved. -/
def buildPlayersPoints (table : PlayerTable) (pp : List (String × ℚ)) :
    List (String × ℚ) :=
  pp.foldl (fun acc kv => assignField acc (getPlayerName table kv.1) kv.2) []

/-- The `get_league_matchups` transformation of one matchup (part_009
lines 270–313).  `originalStarters` is the pre-enrichment copy
(`transformed.starters ? [...transformed.starters] : []`); the
`starters_points` branch runs only when the field is truthy **and**
`originalStarters.length > 0`. -/
def transformMatchup (table : PlayerTable) (matchup : Matchup) :
    EnrichedMatchup :=
  let originalStarters := matchup.starters.getD []
  { starters := matchup.starters.map (List.map (getPlayerName table)),
    players := matchup.players.map (List.map (getPlayerName table)),
    starters_points :=
      match matchup.starters_points with
      | some pts =>
        if originalStarters.length > 0 then
          some (.named (buildStartersWithPoints table originalStarters pts))
        else some (.positional pts)
      | none => none,
    players_points := matchup.players_points.map (buildPlayersPoints table),
    rest := matchup.rest }

/-- `data.map(matchup => ...)` over the upstream response. -/
def transformMatchups (table : PlayerTable) (data : List Matchup) :
    List EnrichedMatchup :=
  data.map (transformMatchup table)

/-- The point value `24.5` of the spec's example, as a normalised
rational constructor literal (`49/2`) so that kernel evaluation never
needs `Nat.gcd`. -/
def pts245 : ℚ := ⟨49, 2, by norm_num, by norm_num⟩

/-- The point value `10.2` of the spec's example (`51/5`). -/
def pts102 : ℚ := ⟨51, 5, by norm_num, by norm_num⟩

/-! ## Error taxonomy and upstream client (`makeApiRequest`) -/

/-- The MCP SDK error codes raised by the server. -/
inductive ErrCode where
  | InternalError
  | InvalidParams
  | MethodNotFound
  | InvalidRequest
deriving DecidableEq

/-- An `McpError`: machine-checkable code and human-readable message (the
message as passed to the `McpError` constructor). -/
structure McpErr where
  code : ErrCode
  message : String
deriving DecidableEq

/-- The observable server state the dispatch layer mutates: the shared
`lastRequestTime` of the rate limiter. -/
structure ServerState where
  lastRequestTime : Int
deriving DecidableEq

/-- What happened inside `makeApiRequest`'s `try` block: `fetch` produced
a response (status, statusText, parsed JSON body), or it — or
`response.json()` — threw, with the underlying error's `message`.  Either
way the `catch` wraps the message identically, so the two throw sources
are one constructor. -/
inductive FetchOutcome where
  | success (status : ℕ) (statusText : String) (body : Json)
  | failure (message : String)

/-- `Response.ok` (WHATWG fetch): status in the 2xx range. -/
def responseOk (status : ℕ) : Bool := 200 ≤ status && status ≤ 299

/-- `makeApiRequest(endpoint)` (part_009 lines 131–151):
```
await this.enforceRateLimit();
try {
  const response = await fetch(url);
  if (!response.ok) {
    throw new Error(`API request failed: ${response.status} ${response.statusText}`);
  }
  const data = await response.json();
  return data;
} catch (error) {
  throw new McpError(ErrorCode.InternalError,
    `Failed to fetch from Sleeper API: ${...message...}`);
}
```
`stamp` is the timestamp `enforceRateLimit` wrote to `lastRequestTime`;
the third component records the endpoint fetched (the call's single
outbound request). -/
def makeApiRequest (stamp : Int) (endpoint : String)
    (outcome : FetchOutcome) : Except McpErr Json × ServerState × List String :=
  let st' : ServerState := { lastRequestTime := stamp }
  match outcome with
  | .failure msg =>
    (.error ⟨.InternalError, "Failed to fetch from Sleeper API: " ++ msg⟩,
      st', [endpoint])
  | .success status statusText body =>
    if responseOk status then (.ok body, st', [endpoint])
    else
      (.error ⟨.InternalError,
        "Failed to fetch from Sleeper API: " ++ ("API request failed: "
          ++ toString status ++ " " ++ statusText)⟩, st', [endpoint])

/-- The `get_league` tool handler (part_009 lines 196–199): validated
`league_id`, then `makeApiRequest("/league/" + league_id)`.  An
`McpError` thrown by `makeApiRequest` propagates unchanged through the
dispatch `catch` (which only converts `ZodError`s); on success the data
is wrapped by `formatResponse` into a single text content block — the
model keeps the data value itself. -/
def getLeagueTool (league_id : String) (stamp : Int)
    (outcome : FetchOutcome) : Except McpErr Json × ServerState × List String :=
  makeApiRequest stamp ("/league/" ++ league_id) outcome

/-! ## SchemaRegistry (`tool_validation_schemas.ts`) -/

/-- `GetLeagueMatchupsSchema.parse` —
`z.object({ league_id: z.string(), week: z.number().min(1).max(18) })`.
zod collects every issue rather than stopping at the first; each issue is
rendered as the dispatch handler does, `` `${path}: ${message}` ``. -/
def parseGetLeagueMatchups (args : List (String × Json)) :
    Except (List String) (String × ℚ) :=
  let leagueIssues :=
    match getField args "league_id" with
    | some (.str _) => []
    | some _ => ["league_id: Expected string"]
    | none => ["league_id: Required"]
  let weekIssues :=
    match getField args "week" with
    | some (.num w) =>
      (if w < 1 then ["week: Number must be greater than or equal to 1"]
       else [])
        ++ (if w > 18 then ["week: Number must be less than or equal to 18"]
            else [])
    | some _ => ["week: Expected number"]
    | none => ["week: Required"]
  match getField args "league_id", getField args "week",
      leagueIssues ++ weekIssues with
  | some (.str lid), some (.num w), [] => .ok (lid, w)
  | _, _, issues => .error issues

/-- `get_league_matchups` argument validation as performed at dispatch:
`GetLeagueMatchupsSchema.parse(args)` with a thrown `ZodError` caught and
converted to
`McpError(InvalidParams, "Invalid parameters: " + issues.join(", "))`
(part_009 lines 254 and 399–405). -/
def validateGetLeagueMatchups (args : List (String × Json)) :
    Except McpErr (String × ℚ) :=
  match parseGetLeagueMatchups args with
  | .ok p => .ok p
  | .error issues =>
    .error ⟨.InvalidParams,
      "Invalid parameters: " ++ String.intercalate ", " issues⟩

/-! ## Line-pipe transport (`FilteredStdioTransport`, two variants)

Variant 1 (part_011) checks only `parsed.jsonrpc !== '2.0'` (strict
inequality; the structural check is commented out in the source) and
forwards valid messages to every handler in its `_messageHandlers` set.
Variant 2 (part_012) checks `obj.jsonrpc == '2.0'` (JS **loose**
equality) plus an MCP method allow-list, and forwards to the single
stored `onmessage` handler.  `JSON.parse` is the boundary of the model: a
line is given together with its parse result (`none` = the parse threw). -/

/-- Decimal rendering of a model number during JS array-to-string
coercion.  Integers render as JS renders them; non-integer rationals are
rendered `"num/den"` — a stand-in which, like every actual JS number
rendering, never has the shape `"2.0"` (JS never prints a trailing
`.0`), the only string this model ever compares such a rendering to. -/
def jsNumToString (q : ℚ) : String :=
  if q.den = 1 then toString q.num
  else toString q.num ++ "/" ++ toString q.den

mutual

/-- `String(elem)` during `Array.prototype.join`: `null` joins as the
empty string, booleans as `true`/`false`, nested arrays join
recursively, plain objects as `[object Object]`. -/
def jsElemString : Json → String
  | .null => ""
  | .bool b => toString b
  | .num q => jsNumToString q
  | .str s => s
  | .arr l => jsArrJoin l
  | .obj _ => "[object Object]"

/-- `Array.prototype.toString`: elements joined with `","`. -/
def jsArrJoin : List Json → String
  | [] => ""
  | [x] => jsElemString x
  | x :: y :: xs => jsElemString x ++ "," ++ jsArrJoin (y :: xs)

end

/-- JS loose equality `v == '2.0'` for a property value (`none` =
`undefined`): a string compares directly; a number compares against
`ToNumber('2.0') = 2`; an array coerces to its joined string; a plain
object coerces to `"[object Object]"`; `null`/`undefined` are loosely
equal only to each other, and booleans coerce to `0`/`1`, neither equal
to `2`. -/
def jsLooseEqStr20 : Option Json → Bool
  | some (.str s) => s == "2.0"
  | some (.num q) => q == 2
  | some (.arr l) => jsArrJoin l == "2.0"
  | some (.obj _) => "[object Object]" == "2.0"
  | _ => false

/-- `isValidJSONRPC` of variant 1 (part_011 lines 72–103): object guard,
then `obj.jsonrpc !== '2.0'` (strict): only the exact string passes.  An
array passes `typeof obj === 'object'` but has no `jsonrpc` property. -/
def isValidJSONRPC_v1 : Json → Bool
  | .obj fields =>
    match getField fields "jsonrpc" with
    | some (.str s) => s == "2.0"
    | _ => false
  | _ => false

/-- `isValidJSONRPC` of variant 2 (part_012 lines 98–107): object guard,
then `return (obj.jsonrpc == '2.0')` — loose equality. -/
def isValidJSONRPC_v2 : Json → Bool
  | .obj fields => jsLooseEqStr20 (getField fields "jsonrpc")
  | .arr _ => jsLooseEqStr20 none
  | _ => false

/-- The fixed MCP method allow-list of variant 2 (part_012 lines
119–143). -/
def validMethods : List String :=
  ["initialize", "notifications/initialized", "ping", "tools/list",
   "tools/call", "resources/list", "resources/read", "prompts/list",
   "prompts/get", "completion/complete", "roots/list",
   "sampling/createMessage", "logging/setLevel", "notifications/message",
   "notifications/progress", "notifications/cancelled",
   "notifications/roots/list_changed",
   "notifications/resources/list_changed",
   "notifications/resources/updated", "notifications/tools/list_changed",
   "notifications/prompts/list_changed"]

/-- `isValidMCPMessage` (part_012 lines 112–161): `if (obj.method)` —
the allow-list check runs only for a **truthy** `method` (a non-string
truthy method is never in the list of strings); a message with an `id`
and falsy `method` must carry `result` or `error` (field presence, as JS
compares against `undefined`). -/
def isValidMCPMessage : Json → Bool
  | .obj fields =>
    (if jsTruthy (getField fields "method") then
      match getField fields "method" with
      | some (.str s) => validMethods.contains s
      | _ => false
     else true)
    && (if (getField fields "id").isSome
          && ! jsTruthy (getField fields "method") then
          (getField fields "result").isSome
            || (getField fields "error").isSome
        else true)
  | .arr _ => true
  | _ => false

/-- What one input line produced, variant 1: the `(handler, message)`
deliveries and the lines written to the stderr diagnostic channel. -/
structure LineOutcome where
  delivered : List (ℕ × Json)
  stderrLines : List String

/-- `` `${line.substring(0, 100)}...` `` of the diagnostic messages. -/
def lineSubstr100 (line : String) : String := line.take 100 ++ "..."

/-- The blank-line guard `if (!line.trim()) return`: `line.trim()` is
empty — falsy — exactly when every character of the line is
whitespace. -/
def jsBlank (line : String) : Bool :=
  line.data.all (fun c => c.isWhitespace)

/-- Variant 1 line processing (part_011 lines 33–57): empty lines are
skipped; a parse failure or an invalid message is only logged to stderr;
a valid message goes to every registered handler. -/
def processLine_v1 (handlers : List ℕ) (line : String)
    (parsed : Option Json) : LineOutcome :=
  if jsBlank line then ⟨[], []⟩
  else
    match parsed with
    | none => ⟨[], ["[MCP] Ignoring non-JSON input: " ++ lineSubstr100 line]⟩
    | some j =>
      if isValidJSONRPC_v1 j then ⟨handlers.map (fun h => (h, j)), []⟩
      else ⟨[], ["[MCP] Ignoring non-JSON-RPC input: " ++ lineSubstr100 line]⟩

/-- Variant 2 outcome: the message passed to the stored original
`onmessage` handler (if any), and whether diagnostics were written to
stderr (`console.error`; variant 2 also logs on success, so only the
flag is modelled). -/
structure LineOutcomeV2 where
  forwarded : Option Json
  loggedStderr : Bool

/-- Variant 2 line processing (part_012 lines 46–76): empty lines are
skipped; a message must pass `isValidJSONRPC` **and** `isValidMCPMessage`
to reach the handler; everything else is only logged. -/
def processLine_v2 (line : String) (parsed : Option Json) : LineOutcomeV2 :=
  if jsBlank line then ⟨none, false⟩
  else
    match parsed with
    | none => ⟨none, true⟩
    | some j =>
      if isValidJSONRPC_v2 j && isValidMCPMessage j then ⟨some j, true⟩
      else ⟨none, true⟩

/-! ## Heap model of the enrichment (mutation / frame behaviour)

To state that enrichment does not mutate the upstream response in place,
the payloads live on an explicit heap of JS objects and arrays and the
two transformations are re-traced at the heap level.  Every store the
code performs targets a cell it allocated itself — the `{...payload}`
copy, the fresh arrays produced by `.map`, and the fresh
`startersWithPoints` / `newPlayersPoints` objects — so all cells holding
the upstream response stay untouched. -/

/-- A heap value: an inline primitive, or a reference to a heap cell
(JS objects and arrays are reference values). -/
inductive HVal where
  | prim (j : Json)
  | ref (addr : ℕ)

/-- A heap cell: a JS object (field list, enumeration order) or array. -/
inductive HObj where
  | obj (fields : List (String × HVal))
  | arr (elems : List HVal)

/-- The heap: an allocation counter and the cells, newest binding
first. -/
structure Heap where
  next : ℕ
  cells : List (ℕ × HObj)

/-- Dereference. -/
def Heap.read (h : Heap) (a : ℕ) : Option HObj :=
  List.lookup a h.cells

/-- Allocate a fresh cell at address `next`. -/
def Heap.alloc (h : Heap) (o : HObj) : ℕ × Heap :=
  (h.next, ⟨h.next + 1, (h.next, o) :: h.cells⟩)

/-- Overwrite the cell at `a` (newest binding shadows). -/
def Heap.write (h : Heap) (a : ℕ) (o : HObj) : Heap :=
  ⟨h.next, (a, o) :: h.cells⟩

/-- JS truthiness of a heap value: references (objects/arrays) are
always truthy. -/
def hvalTruthy : HVal → Bool
  | .ref _ => true
  | .prim j => jsTruthy (some j)

/-- Property assignment on a field list (overwrite in place or
append). -/
def setFieldH : List (String × HVal) → String → HVal → List (String × HVal)
  | [], k, v => [(k, v)]
  | (k', v') :: rest, k, v =>
    if k' = k then (k, v) :: rest else (k', v') :: setFieldH rest k v

/-- The fields of the object at `a` (`[]` when `a` is not an object —
the degenerate reads a JS `TypeError`/`undefined` path would also leave
unwritten). -/
def Heap.objFields (h : Heap) (a : ℕ) : List (String × HVal) :=
  match h.read a with
  | some (.obj fs) => fs
  | _ => []

/-- The elements of the array at `a` (`[]` when not an array). -/
def Heap.arrElems (h : Heap) (a : ℕ) : List HVal :=
  match h.read a with
  | some (.arr es) => es
  | _ => []

/-- `getPlayerName` applied to an array element (payload arrays hold
player-id strings; a non-string element passes through unchanged). -/
def mapNameH (table : PlayerTable) : HVal → HVal
  | .prim (.str s) => .prim (.str (getPlayerName table s))
  | v => v

/-- Allocate a fresh cell for `o` and store its reference into field
`key` of the object at `copyAddr` (the address of the fresh cell is
`h.next`).  The common tail of every mutating step of the two
transformations. -/
def allocAndSet (h : Heap) (copyAddr : ℕ) (key : String) (o : HObj) :
    Heap :=
  let newAddr := h.next
  let h2 := (h.alloc o).2
  h2.write copyAddr (.obj (setFieldH (h2.objFields copyAddr) key
    (.ref newAddr)))

/-- One `if (transformed.K) { transformed.K = transformed.K.map(getPlayerName) }`
step at the heap level: when the copy's field `key` holds a reference,
`.map` allocates a fresh array of mapped elements and the assignment
stores its reference into the copy; a falsy field skips the step, and a
truthy primitive (on which `.map` would throw) also performs no store. -/
def mapFieldStepH (table : PlayerTable) (copyAddr : ℕ) (key : String)
    (h : Heap) : Heap :=
  match List.lookup key (h.objFields copyAddr) with
  | some (.ref arrAddr) =>
    allocAndSet h copyAddr key
      (.arr ((h.arrElems arrAddr).map (mapNameH table)))
  | _ => h

/-- The roster transformation of part_009 lines 217–242 at the heap
level: `{...roster}` allocates a shallow copy (same field list, shared
references), then the three `map` steps run on the copy.  Returns the
copy's address. -/
def transformRosterH (table : PlayerTable) (h : Heap) (rosterAddr : ℕ) :
    ℕ × Heap :=
  let (copyAddr, h1) := h.alloc (.obj (h.objFields rosterAddr))
  let h2 := mapFieldStepH table copyAddr "players" h1
  let h3 := mapFieldStepH table copyAddr "starters" h2
  let h4 := mapFieldStepH table copyAddr "keepers" h3
  (copyAddr, h4)

/-- `data.map(roster => ...)`, threading the heap. -/
def transformRostersH (table : PlayerTable) (h : Heap) :
    List ℕ → List ℕ × Heap
  | [] => ([], h)
  | a :: rest =>
    let (c, h1) := transformRosterH table h a
    let (cs, h2) := transformRostersH table h1 rest
    (c :: cs, h2)

/-- `playerId` of a starter element for the `startersWithPoints` keys
(starters are strings per the upstream API). -/
def starterNameH (table : PlayerTable) : HVal → String
  | .prim (.str s) => getPlayerName table s
  | _ => ""

/-- `transformed.starters_points[index] || 0` over the points array's
elements: an out-of-range index reads `undefined` (falsy), and any falsy
element is replaced by `0`. -/
def pointAtH (elems : List HVal) (i : ℕ) : HVal :=
  let v := elems.getD i (.prim .null)
  if hvalTruthy v then v else .prim (.num 0)

/-- The field list of the fresh `startersWithPoints` object: the
`forEach` of part_009 lines 294–298 as successive stores into the
just-allocated object. -/
def startersWithPointsH (table : PlayerTable) (originalStarters : List HVal)
    (ptsElems : List HVal) : List (String × HVal) :=
  originalStarters.enum.foldl
    (fun acc ip =>
      setFieldH acc (starterNameH table ip.2) (pointAtH ptsElems ip.1)) []

/-- The field list of the fresh `newPlayersPoints` object (part_009
lines 304–309): keys renamed through `getPlayerName`, values kept. -/
def playersPointsH (table : PlayerTable)
    (entries : List (String × HVal)) : List (String × HVal) :=
  entries.foldl
    (fun acc kv => setFieldH acc (getPlayerName table kv.1) kv.2) []

/-- The `starters_points` step of the matchup transformation: when the
copy's `starters_points` is truthy and `originalStarters` is nonempty,
a fresh object is built (allocated, then filled) and its reference
stored into the copy; otherwise nothing is stored.  A truthy non-array
value indexes as all-`undefined` — the degenerate `[]` elements. -/
def startersPointsStepH (table : PlayerTable) (copyAddr : ℕ)
    (originalStarters : List HVal) (h : Heap) : Heap :=
  match List.lookup "starters_points" (h.objFields copyAddr) with
  | some v =>
    if hvalTruthy v && ! originalStarters.isEmpty then
      let ptsElems := match v with
        | .ref a => h.arrElems a
        | _ => []
      allocAndSet h copyAddr "starters_points"
        (.obj (startersWithPointsH table originalStarters ptsElems))
    else h
  | none => h

/-- The `players_points` step: when the copy's `players_points` is
truthy, a fresh object with renamed keys is allocated and its reference
stored into the copy (`Object.entries` of a non-object is empty). -/
def playersPointsStepH (table : PlayerTable) (copyAddr : ℕ) (h : Heap) :
    Heap :=
  match List.lookup "players_points" (h.objFields copyAddr) with
  | some v =>
    if hvalTruthy v then
      let entries := match v with
        | .ref a => h.objFields a
        | _ => []
      allocAndSet h copyAddr "players_points"
        (.obj (playersPointsH table entries))
    else h
  | none => h

/-- `const originalStarters = transformed.starters ? [...transformed.starters] : []`:
a by-value copy of the copy's pre-enrichment `starters` array (the
spread allocates a JS array, but it is only ever read, so its elements
suffice). -/
def originalStartersH (h : Heap) (copyAddr : ℕ) : List HVal :=
  match List.lookup "starters" (h.objFields copyAddr) with
  | some (.ref a) => h.arrElems a
  | _ => []

/-- The matchup transformation of part_009 lines 270–313 at the heap
level: shallow copy, capture of `originalStarters` (taken **before** the
map steps), the two `map` steps, then the `starters_points` and
`players_points` rebuild steps. -/
def transformMatchupH (table : PlayerTable) (h : Heap)
    (matchupAddr : ℕ) : ℕ × Heap :=
  let (copyAddr, h1) := h.alloc (.obj (h.objFields matchupAddr))
  let originalStarters := originalStartersH h1 copyAddr
  let h2 := mapFieldStepH table copyAddr "starters" h1
  let h3 := mapFieldStepH table copyAddr "players" h2
  let h4 := startersPointsStepH table copyAddr originalStarters h3
  let h5 := playersPointsStepH table copyAddr h4
  (copyAddr, h5)

/-- `data.map(matchup => ...)`, threading the heap. -/
def transformMatchupsH (table : PlayerTable) (h : Heap) :
    List ℕ → List ℕ × Heap
  | [] => ([], h)
  | a :: rest =>
    let (c, h1) := transformMatchupH table h a
    let (cs, h2) := transformMatchupsH table h1 rest
    (c :: cs, h2)

/-- `h'` preserves `h` below `bound`: every cell at an address `< bound`
reads back unchanged, and the allocation counter stays at or above
`bound`. -/
def FramePreserving (bound : ℕ) (h h' : Heap) : Prop :=
  (∀ a, a < bound → h'.read a = h.read a) ∧ bound ≤ h'.next

/-- A concrete upstream response on the heap: a roster (cell 0) with its
`players` array (cell 1), and a matchup (cell 2) with its `starters`
array (3), positional `starters_points` array (4) and id-keyed
`players_points` object (5). -/
def sampleHeap : Heap :=
  ⟨6, [(0, .obj [("players", .ref 1), ("roster_id", .prim (.num 7))]),
       (1, .arr [.prim (.str "4046"), .prim (.str "CLE")]),
       (2, .obj [("starters", .ref 3), ("starters_points", .ref 4),
                 ("players_points", .ref 5)]),
       (3, .arr [.prim (.str "4046"), .prim (.str "5849")]),
       (4, .arr [.prim (.num pts245), .prim (.num pts102)]),
       (5, .obj [("4046", .prim (.num pts245))])]⟩

/-- The claim's valid message `{"jsonrpc":"2.0","method":"ping","id":1}`. -/
def pingMsg : Json :=
  .obj [("jsonrpc", .str "2.0"), ("method", .str "ping"), ("id", .num 1)]

/-- The text of that line (braces escaped). -/
def pingLine : String :=
  "\x7b\"jsonrpc\":\"2.0\",\"method\":\"ping\",\"id\":1\x7d"

/-! ## `get_player` (local lookup) and the prompt registry -/

/-- Modelled from the spec: `GetPlayersSchema` is imported by the server
but is not among the sources; per spec §4.4–4.5 `get_player` validates a
required string `player_id`. -/
def parseGetPlayers (args : List (String × Json)) :
    Except (List String) String :=
  match getField args "player_id" with
  | some (.str pid) => .ok pid
  | some _ => .error ["player_id: Expected string"]
  | none => .error ["player_id: Required"]

/-- The `get_player` tool handler (part_009 lines 375–391):
`Object.values(table).find(p => p.player_id === params.player_id)`; a
missing record raises `McpError(InvalidParams, "Player with ID <id> not
found")`.  No `makeApiRequest` is made: the `ServerState` passes through
and the outbound-request log is empty. -/
def getPlayerTool (table : PlayerTable) (args : List (String × Json))
    (st : ServerState) :
    Except McpErr PlayerRec × ServerState × List String :=
  match parseGetPlayers args with
  | .error issues =>
    (.error ⟨.InvalidParams,
      "Invalid parameters: " ++ String.intercalate ", " issues⟩, st, [])
  | .ok pid =>
    match (table.map Prod.snd).find? (fun p => p.player_id == pid) with
    | none =>
      (.error ⟨.InvalidParams, "Player with ID " ++ pid ++ " not found"⟩,
        st, [])
    | some p => (.ok p, st, [])

/-- A prompt argument declaration, as the `prompts/list` handler exposes
it (the source snapshot also attaches a JSON `schema` to some arguments,
which that handler drops; it is not modelled). -/
structure PromptArgDef where
  name : String
  description : String
  required : Bool
deriving DecidableEq

/-- A prompt definition of `PROMPT_LIST`. -/
structure PromptDef where
  name : String
  description : String
  arguments : List PromptArgDef
deriving DecidableEq

/-- `PROMPT_LIST` of the prompts-module snapshot the part_009 server
imports (the one defining `weekly_summary` with an empty argument
list). -/
def PROMPT_LIST : List PromptDef :=
  [{ name := "fantasy_analyzer",
     description :=
       "Analyze fantasy football data and provide strategic insights",
     arguments :=
       [⟨"league_id", "The league ID to analyze", true⟩,
        ⟨"analysis_type", "Type of analysis to perform", true⟩,
        ⟨"week", "Week number for weekly analysis", false⟩] },
   { name := "weekly_summary",
     description :=
       "Generate a summary of the previous week's games and current standings",
     arguments := [] }]

/-- `getPromptDefinition` — `prompts.find(p => p.name === name) || null`. -/
def getPromptDefinition (name : String) : Option PromptDef :=
  PROMPT_LIST.find? (fun p => p.name == name)

/-- `generateFantasyAnalyzerPrompt`: a switch over `analysis_type`; only
the `matchup_analysis` branch can throw (`if (!week) throw new
Error("Week number is required for matchup analysis")`).  The returned
template prose is static data (spec §4.6) and is abbreviated; no theorem
inspects it. -/
def generateFantasyAnalyzerPrompt (args : List (String × Json)) :
    Except String String :=
  match getField args "analysis_type" with
  | some (.str "matchup_analysis") =>
    if jsTruthy (getField args "week") then
      .ok "<matchup analysis prompt text>"
    else .error "Week number is required for matchup analysis"
  | _ => .ok "<fantasy analysis prompt text>"

/-- `generatePrompt`: the switch only handles `"fantasy_analyzer"` and
`"tuesday_summary"` (the latter returning the static
`weeklySummaryPrompt` text, abbreviated here); the default branch throws
`Error("Unknown prompt: " + name)`, modelled as `.error`. -/
def generatePrompt (name : String) (args : List (String × Json)) :
    Except String String :=
  match name with
  | "fantasy_analyzer" => generateFantasyAnalyzerPrompt args
  | "tuesday_summary" => .ok "<weekly summary prompt text>"
  | _ => .error ("Unknown prompt: " ++ name)

/-- The generated result of a successful `prompts/get`. -/
structure PromptResult where
  description : String
  text : String
deriving DecidableEq

/-- The `prompts/get` handler (part_009 lines 427–473): unknown name →
`MethodNotFound`; first missing required argument → `InvalidParams`
(`!args || !(name in args)`); a plain `Error` thrown during generation is
wrapped as `McpError(InternalError, "Failed to generate prompt: " +
message)` while `McpError`s rethrow unchanged. -/
def getPromptHandler (name : String)
    (args : Option (List (String × Json))) : Except McpErr PromptResult :=
  match getPromptDefinition name with
  | none => .error ⟨.MethodNotFound, "Unknown prompt: " ++ name⟩
  | some d =>
    match (d.arguments.filter (fun a => a.required)).find?
        (fun ra => match args with
          | none => true
          | some a => ! (List.lookup ra.name a).isSome) with
    | some ra =>
      .error ⟨.InvalidParams, "Missing required argument: " ++ ra.name⟩
    | none =>
      match generatePrompt name (args.getD []) with
      | .ok text => .ok ⟨d.description, text⟩
      | .error msg =>
        .error ⟨.InternalError, "Failed to generate prompt: " ++ msg⟩

/-! ## Theorems -/

/-- Whatever `lastRequestTime` a call read, its stamp is at least
`lastRequestTime + delay`: either it slept until `lastRequestTime + delay`,
or the interval had already elapsed at its first clock read. -/
theorem rateCall_stamp_ge {delay last : Int} {c : RateCall}
    (h : RateCallOk delay last c) : last + delay ≤ c.stamp := by
  unfold RateCallOk rateSleepMs timeSinceLastRequest at h
  split at h <;> omega

/-- C1: for every sequence of completed calls through `enforceRateLimit`
with configured delay `d`, and every `i`, the `lastRequestTime` stamp of
call `i+1` minus the stamp of call `i` is at least `d`. -/
theorem C1_rate_limiter_gap (delay init : Int) :
    ∀ (cs : List RateCall), RateRunOk delay init cs →
      ∀ i : ℕ, ∀ hi : i + 1 < cs.length,
        delay ≤ (cs.get ⟨i + 1, hi⟩).stamp
          - (cs.get ⟨i, Nat.lt_of_succ_lt hi⟩).stamp := by
  intro cs
  induction cs generalizing init with
  | nil => intro _ i hi; simp at hi
  | cons c cs ih =>
    intro h i hi
    obtain ⟨hc, hrest⟩ := h
    match i, hi with
    | 0, hi =>
      match cs, hrest, hi with
      | c' :: _, ⟨hc', _⟩, _ =>
        have := rateCall_stamp_ge hc'
        simpa using by omega
    | i + 1, hi =>
      exact ih c.stamp hrest i (by simpa using hi)

/-- C1 witness: a concrete two-call run with the default 120 ms delay
(second call reads `now = 1050`, 50 ms after the first stamp, sleeps
70 ms and stamps 1120); the gap between the two stamps is ≥ 120. -/
theorem C1_rate_limiter_gap_witness :
    RateRunOk 120 0 [⟨1000, 1000⟩, ⟨1050, 1120⟩] ∧
      (120 : Int) ≤ (([⟨1000, 1000⟩, ⟨1050, 1120⟩] :
          List RateCall).get ⟨1, by decide⟩).stamp
        - (([⟨1000, 1000⟩, ⟨1050, 1120⟩] : List RateCall).get
            ⟨0, by decide⟩).stamp :=
  ⟨by decide, C1_rate_limiter_gap 120 0 _ (by decide) 0 (by decide)⟩

/-- C2: the check-then-stamp sequence of `enforceRateLimit` is **not**
atomic with respect to concurrent logical callers.  In the interleaved
semantics `RLRun` (faithful to the JS event loop: the only suspension
point is the `setTimeout` await between reading `lastRequestTime` and
stamping it), the schedule `rlBadTrace` is enabled from
`lastRequestTime = 940`: both callers pass the interval check against the
same stale `lastRequestTime` before either stamps, and the two stamped
timestamps are 1060 and 1061 — 1 ms apart, violating the 120 ms
minimum-interval invariant. -/
theorem C2_rate_limiter_check_then_stamp_not_atomic :
    RLRun 120 ⟨940, [], 940⟩ rlBadTrace = some ⟨1061, [], 1061⟩ ∧
      traceStamps rlBadTrace = [1060, 1061] ∧
      ¬ (120 ≤ (1061 : Int) - 1060) := by
  refine ⟨by decide, by decide, by decide⟩

/-- A successful association-list lookup comes from some entry of the
list. -/
theorem lookup_mem_of_eq_some {α β : Type} [BEq α] {l : List (α × β)}
    {k : α} {v : β} (h : List.lookup k l = some v) :
    ∃ k', (k', v) ∈ l := by
  induction l with
  | nil => simp at h
  | cons kv rest ih =>
    obtain ⟨k', v'⟩ := kv
    cases hk : (k == k') with
    | true =>
      refine ⟨k', ?_⟩
      simp only [List.lookup_cons, hk] at h
      injection h with h2
      subst h2
      exact List.mem_cons_self _ _
    | false =>
      simp only [List.lookup_cons, hk] at h
      obtain ⟨k'', hm⟩ := ih h
      exact ⟨k'', List.mem_cons_of_mem _ hm⟩

/-- On a table whose records all carry a nonempty `full_name`, the code's
`getPlayerName` agrees with the spec's "looked-up `full_name` if present,
else the original identifier". -/
theorem getPlayerName_eq_spec {table : PlayerTable} (hwf : wfTable table) :
    getPlayerName table = specLookupName table := by
  funext pid
  unfold getPlayerName specLookupName
  cases hl : List.lookup pid table with
  | none => rfl
  | some p =>
    obtain ⟨k', hm⟩ := lookup_mem_of_eq_some hl
    obtain ⟨h1, h2⟩ := hwf _ hm
    cases hf : p.full_name with
    | none => exact absurd hf h1
    | some s =>
      have hs : ¬ s = "" := fun h => h2 (by rw [hf, h])
      simp [hf, hs]

/-- C4: `get_league_rosters` enrichment replaces each element of
`players`, `starters` and `keepers` by the looked-up `full_name` when the
identifier is in the player table (every record of which carries a
nonempty `full_name`), leaves it equal to the original identifier
otherwise, and passes every other field of the roster through
unmodified. -/
theorem C4_roster_enrichment (table : PlayerTable) (hwf : wfTable table)
    (r : Roster) :
    (transformRoster table r).players
        = r.players.map (List.map (specLookupName table)) ∧
      (transformRoster table r).starters
        = r.starters.map (List.map (specLookupName table)) ∧
      (transformRoster table r).keepers
        = r.keepers.map (List.map (specLookupName table)) ∧
      (transformRoster table r).rest = r.rest := by
  unfold transformRoster
  rw [getPlayerName_eq_spec hwf]
  exact ⟨rfl, rfl, rfl, rfl⟩

/-- C4 witness: the spec's example — `players=["4046","CLE"]` with the
sample table mapping `"4046"` to `"Patrick Mahomes"` yields
`["Patrick Mahomes","CLE"]`. -/
theorem C4_roster_enrichment_witness :
    wfTable sampleTable ∧
      (transformRoster sampleTable
        { players := some ["4046", "CLE"], starters := none,
          keepers := none, rest := [] }).players
        = some ["Patrick Mahomes", "CLE"] :=
  ⟨by decide, by
    rw [(C4_roster_enrichment sampleTable (by decide)
      { players := some ["4046", "CLE"], starters := none,
        keepers := none, rest := [] }).1]
    decide⟩

/-- C3 counterexample: with `starters=["4046","5849"]` but
`starters_points=[24.5]`, index 1 is out of range on the points side; the
claim calls this a guarded logic error, but the transformation silently
fabricates the value `0` for `"5849"` (`undefined || 0`) and returns an
ordinary enriched payload — no error of any kind. -/
theorem C3_starters_points_counterexample :
    (transformMatchup sampleTable
        { starters := some ["4046", "5849"], players := none,
          starters_points := some [pts245], players_points := none,
          rest := [] }).starters_points
      = some (.named [("Patrick Mahomes", pts245), ("5849", 0)]) ∧
      ([pts245] : List ℚ).length < (["4046", "5849"] : List String).length ∧
      ¬ ((0 : ℚ) ∈ ([pts245] : List ℚ)) :=
  ⟨by decide, by decide, by decide⟩

/-- Assigning a key not yet present appends the pair. -/
theorem assignField_not_mem {acc : List (String × ℚ)} {k : String}
    (h : k ∉ acc.map Prod.fst) (v : ℚ) :
    assignField acc k v = acc ++ [(k, v)] := by
  induction acc with
  | nil => rfl
  | cons kv rest ih =>
    obtain ⟨k', v'⟩ := kv
    simp only [List.map_cons, List.mem_cons, not_or] at h
    rw [assignField, if_neg (fun e => h.1 e.symm), ih h.2]
    rfl

/-- Folding JS object assignments over pairwise-distinct keys, all fresh
for the accumulator, appends the pairs in order. -/
theorem foldl_assignField_eq_append (items : List (String × ℚ)) :
    ∀ acc : List (String × ℚ),
      (items.map Prod.fst).Nodup →
      (∀ k ∈ items.map Prod.fst, k ∉ acc.map Prod.fst) →
      items.foldl (fun acc kv => assignField acc kv.1 kv.2) acc
        = acc ++ items := by
  induction items with
  | nil => intro acc _ _; simp
  | cons kv rest ih =>
    intro acc hnd hdisj
    obtain ⟨k, v⟩ := kv
    simp only [List.map_cons, List.nodup_cons] at hnd
    rw [List.foldl_cons, assignField_not_mem (hdisj k (by simp)) v,
      ih (acc ++ [(k, v)]) hnd.2 ?_]
    · simp
    · intro k' hk'
      simp only [List.map_append, List.mem_append, List.map_cons,
        List.map_nil, List.mem_singleton, not_or]
      refine ⟨hdisj k' (by simp [hk']), ?_⟩
      intro e
      exact hnd.1 (e ▸ hk')

/-- When the resolved starter names are pairwise distinct, the object
built by the matchup transformation is exactly the index-for-index
pairing of resolved names with `starters_points` (missing indices
defaulting to `0`). -/
theorem buildStartersWithPoints_eq_map (table : PlayerTable)
    (starters : List String) (pts : List ℚ)
    (hnd : (starters.map (getPlayerName table)).Nodup) :
    buildStartersWithPoints table starters pts
      = starters.enum.map
          (fun ip => (getPlayerName table ip.2, pts.getD ip.1 0)) := by
  unfold buildStartersWithPoints
  rw [← List.foldl_map
    (fun ip : ℕ × String => (getPlayerName table ip.2, pts.getD ip.1 0))
    (fun acc kv => assignField acc kv.1 kv.2)]
  rw [foldl_assignField_eq_append _ [] ?_ (by simp)]
  · simp
  · have : ((starters.enum.map
        (fun ip : ℕ × String =>
          (getPlayerName table ip.2, pts.getD ip.1 0))).map Prod.fst)
      = starters.map (getPlayerName table) := by
      rw [List.map_map]
      have h2 : (Prod.fst ∘ fun ip : ℕ × String =>
          (getPlayerName table ip.2, pts.getD ip.1 0))
        = (getPlayerName table) ∘ Prod.snd := rfl
      rw [h2, ← List.map_map, List.enum_map_snd]
    rw [this]
    exact hnd

/-- C3 amended: for a matchup with a truthy `starters` array (nonempty)
and a `starters_points` array, enrichment replaces `starters_points` by
the object pairing each resolved player name (index-for-index against the
pre-enrichment `starters` order) with the point value at the same index —
but an index out of range on the points side silently contributes the
value `0`, and extra point values beyond the starters length are silently
dropped; no error is raised.  (Stated for pairwise-distinct resolved
names; duplicate names overwrite.) -/
theorem C3_starters_points_enrichment (table : PlayerTable) (m : Matchup)
    (starters : List String) (pts : List ℚ)
    (hs : m.starters = some starters) (hne : starters ≠ [])
    (hp : m.starters_points = some pts)
    (hnd : (starters.map (getPlayerName table)).Nodup) :
    (transformMatchup table m).starters_points
      = some (.named (starters.enum.map
          (fun ip => (getPlayerName table ip.2, pts.getD ip.1 0)))) := by
  unfold transformMatchup
  simp only [hs, hp, Option.getD_some]
  rw [if_pos (by cases starters with
    | nil => exact absurd rfl hne
    | cons _ _ => simp)]
  rw [buildStartersWithPoints_eq_map table starters pts hnd]

/-- C3 amended, witness: the spec's round-trip example —
`starters=["4046","5849"]`, `starters_points=[24.5,10.2]` yields
`{"Patrick Mahomes": 24.5, "5849": 10.2}`, index-for-index. -/
theorem C3_starters_points_enrichment_witness :
    (["4046", "5849"] : List String) ≠ [] ∧
      ((["4046", "5849"] : List String).map
        (getPlayerName sampleTable)).Nodup ∧
      (transformMatchup sampleTable
        { starters := some ["4046", "5849"], players := none,
          starters_points := some [pts245, pts102], players_points := none,
          rest := [] }).starters_points
        = some (.named [("Patrick Mahomes", pts245), ("5849", pts102)]) :=
  ⟨by decide, by decide, by
    rw [C3_starters_points_enrichment sampleTable
      { starters := some ["4046", "5849"], players := none,
        starters_points := some [pts245, pts102], players_points := none,
        rest := [] }
      ["4046", "5849"] [pts245, pts102] rfl (by decide) rfl (by decide)]
    decide⟩

/-- C5 counterexample: on a 404, the `InternalError` raised by
`makeApiRequest` carries the message
`"Failed to fetch from Sleeper API: API request failed: 404 Not Found"` —
the inner `Error` is re-wrapped by the `catch` — not the bare
`"API request failed: 404 Not Found"` the claim states. -/
theorem C5_upstream_error_message_counterexample :
    (makeApiRequest 1000 "/league/123" (.success 404 "Not Found" .null)).1
      = .error ⟨.InternalError,
          "Failed to fetch from Sleeper API: API request failed: 404 Not Found"⟩
      ∧ "Failed to fetch from Sleeper API: API request failed: 404 Not Found"
        ≠ "API request failed: 404 Not Found" :=
  ⟨rfl, by decide⟩

/-- C5 amended: on every non-2xx upstream response, `makeApiRequest`
fails — never returns a value — with an `InternalError` whose message is
`"Failed to fetch from Sleeper API: API request failed: <status>
<statusText>"`, and a tool call that made the request (`get_league`)
fails with that same error. -/
theorem C5_upstream_non2xx_internal_error (league_id : String)
    (stamp : Int) (status : ℕ) (statusText : String) (body : Json)
    (h : responseOk status = false) :
    (makeApiRequest stamp ("/league/" ++ league_id)
        (.success status statusText body)).1
      = .error ⟨.InternalError,
          "Failed to fetch from Sleeper API: " ++ ("API request failed: "
            ++ toString status ++ " " ++ statusText)⟩
      ∧ (getLeagueTool league_id stamp
          (.success status statusText body)).1
        = .error ⟨.InternalError,
            "Failed to fetch from Sleeper API: " ++ ("API request failed: "
              ++ toString status ++ " " ++ statusText)⟩ := by
  simp [getLeagueTool, makeApiRequest, h]

/-- C5 amended, witness: the 404 instance. -/
theorem C5_upstream_non2xx_internal_error_witness :
    responseOk 404 = false ∧
      (getLeagueTool "123" 1000 (.success 404 "Not Found" .null)).1
        = .error ⟨.InternalError,
            "Failed to fetch from Sleeper API: " ++ ("API request failed: "
              ++ toString 404 ++ " " ++ "Not Found")⟩ :=
  ⟨by decide,
    (C5_upstream_non2xx_internal_error "123" 1000 404 "Not Found" .null
      (by decide)).2⟩

/-- C6: `get_league_matchups` validation — `week = 0` and `week = 19`
fail with an `InvalidParams` error; `week = 1` and `week = 18` (with a
string `league_id`) pass validation, returning the parsed arguments with
no error. -/
theorem C6_week_bounds :
    validateGetLeagueMatchups [("league_id", .str "123"), ("week", .num 0)]
        = .error ⟨.InvalidParams,
            "Invalid parameters: week: Number must be greater than or equal to 1"⟩
      ∧ validateGetLeagueMatchups
          [("league_id", .str "123"), ("week", .num 19)]
        = .error ⟨.InvalidParams,
            "Invalid parameters: week: Number must be less than or equal to 18"⟩
      ∧ validateGetLeagueMatchups
          [("league_id", .str "123"), ("week", .num 1)] = .ok ("123", 1)
      ∧ validateGetLeagueMatchups
          [("league_id", .str "123"), ("week", .num 18)] = .ok ("123", 18) :=
  ⟨rfl, rfl, rfl, rfl⟩

/-- Allocation leaves every already-allocated address readable
unchanged. -/
theorem Heap.read_alloc_lt {h : Heap} {o : HObj} {a : ℕ}
    (ha : a < h.next) : ((h.alloc o).2).read a = h.read a := by
  unfold Heap.alloc Heap.read
  have hne : (a == h.next) = false :=
    beq_eq_false_iff_ne.mpr (Nat.ne_of_lt ha)
  simp [List.lookup_cons, hne]

/-- Writing one cell leaves every other address readable unchanged. -/
theorem Heap.read_write_ne {h : Heap} {b : ℕ} {o : HObj} {a : ℕ}
    (hne : a ≠ b) : (h.write b o).read a = h.read a := by
  unfold Heap.write Heap.read
  have hb : (a == b) = false := beq_eq_false_iff_ne.mpr hne
  simp [List.lookup_cons, hb]

/-- Doing nothing preserves the frame. -/
theorem framePreserving_id {bound : ℕ} {h : Heap} (hb : bound ≤ h.next) :
    FramePreserving bound h h :=
  ⟨fun _ _ => rfl, hb⟩

/-- Frame preservation composes. -/
theorem framePreserving_trans {bound : ℕ} {h h' h'' : Heap}
    (h1 : FramePreserving bound h h') (h2 : FramePreserving bound h' h'') :
    FramePreserving bound h h'' :=
  ⟨fun a ha => (h2.1 a ha).trans (h1.1 a ha), h2.2⟩

/-- `allocAndSet` writes only the fresh cell and the copy: cells below
`bound ≤ copyAddr` are untouched. -/
theorem allocAndSet_frame {bound : ℕ} {h : Heap} {copyAddr : ℕ}
    (key : String) (o : HObj) (hb : bound ≤ h.next)
    (hc : bound ≤ copyAddr) :
    FramePreserving bound h (allocAndSet h copyAddr key o) := by
  refine ⟨fun a ha => ?_, ?_⟩
  · show (((h.alloc o).2).write copyAddr _).read a = h.read a
    rw [Heap.read_write_ne (by omega : a ≠ copyAddr)]
    exact Heap.read_alloc_lt (by omega)
  · show bound ≤ (((h.alloc o).2).write copyAddr _).next
    simp [Heap.write, Heap.alloc]
    omega

/-- A `map`-and-reassign step preserves the frame below
`bound ≤ copyAddr`. -/
theorem mapFieldStepH_frame (table : PlayerTable) (copyAddr : ℕ)
    (key : String) (h : Heap) (bound : ℕ) (hb : bound ≤ h.next)
    (hc : bound ≤ copyAddr) :
    FramePreserving bound h (mapFieldStepH table copyAddr key h) := by
  unfold mapFieldStepH
  split
  · exact allocAndSet_frame key _ hb hc
  · exact framePreserving_id hb

/-- The `starters_points` rebuild preserves the frame below
`bound ≤ copyAddr`. -/
theorem startersPointsStepH_frame (table : PlayerTable) (copyAddr : ℕ)
    (originalStarters : List HVal) (h : Heap) (bound : ℕ)
    (hb : bound ≤ h.next) (hc : bound ≤ copyAddr) :
    FramePreserving bound h
      (startersPointsStepH table copyAddr originalStarters h) := by
  unfold startersPointsStepH
  split
  · split
    · exact allocAndSet_frame _ _ hb hc
    · exact framePreserving_id hb
  · exact framePreserving_id hb

/-- The `players_points` rebuild preserves the frame below
`bound ≤ copyAddr`. -/
theorem playersPointsStepH_frame (table : PlayerTable) (copyAddr : ℕ)
    (h : Heap) (bound : ℕ) (hb : bound ≤ h.next) (hc : bound ≤ copyAddr) :
    FramePreserving bound h (playersPointsStepH table copyAddr h) := by
  unfold playersPointsStepH
  split
  · split
    · exact allocAndSet_frame _ _ hb hc
    · exact framePreserving_id hb
  · exact framePreserving_id hb

/-- One roster transformation preserves every cell allocated before it
ran. -/
theorem transformRosterH_frame (table : PlayerTable) (h : Heap)
    (rosterAddr : ℕ) (bound : ℕ) (hb : bound ≤ h.next) :
    FramePreserving bound h ((transformRosterH table h rosterAddr).2) := by
  have ha : FramePreserving bound h
      ((h.alloc (.obj (h.objFields rosterAddr))).2) :=
    ⟨fun a haa => Heap.read_alloc_lt (lt_of_lt_of_le haa hb),
      by simp [Heap.alloc]; omega⟩
  have h1 := framePreserving_trans ha
    (mapFieldStepH_frame table h.next "players" _ bound ha.2 hb)
  have h2 := framePreserving_trans h1
    (mapFieldStepH_frame table h.next "starters" _ bound h1.2 hb)
  have h3 := framePreserving_trans h2
    (mapFieldStepH_frame table h.next "keepers" _ bound h2.2 hb)
  exact h3

/-- One matchup transformation preserves every cell allocated before it
ran. -/
theorem transformMatchupH_frame (table : PlayerTable) (h : Heap)
    (matchupAddr : ℕ) (bound : ℕ) (hb : bound ≤ h.next) :
    FramePreserving bound h ((transformMatchupH table h matchupAddr).2) := by
  have ha : FramePreserving bound h
      ((h.alloc (.obj (h.objFields matchupAddr))).2) :=
    ⟨fun a haa => Heap.read_alloc_lt (lt_of_lt_of_le haa hb),
      by simp [Heap.alloc]; omega⟩
  have h1 := framePreserving_trans ha
    (mapFieldStepH_frame table h.next "starters" _ bound ha.2 hb)
  have h2 := framePreserving_trans h1
    (mapFieldStepH_frame table h.next "players" _ bound h1.2 hb)
  have h3 := framePreserving_trans h2
    (startersPointsStepH_frame table h.next
      (originalStartersH ((h.alloc (.obj (h.objFields matchupAddr))).2)
        h.next)
      _ bound h2.2 hb)
  have h4 := framePreserving_trans h3
    (playersPointsStepH_frame table h.next _ bound h3.2 hb)
  exact h4

/-- The whole roster enrichment preserves every pre-existing cell. -/
theorem transformRostersH_frame (table : PlayerTable) :
    ∀ (addrs : List ℕ) (h : Heap) (bound : ℕ), bound ≤ h.next →
      FramePreserving bound h ((transformRostersH table h addrs).2) := by
  intro addrs
  induction addrs with
  | nil => exact fun h bound hb => framePreserving_id hb
  | cons r rest ih =>
    intro h bound hb
    have h1 := transformRosterH_frame table h r bound hb
    have h2 := ih (transformRosterH table h r).2 bound h1.2
    exact framePreserving_trans h1 h2

/-- The whole matchup enrichment preserves every pre-existing cell. -/
theorem transformMatchupsH_frame (table : PlayerTable) :
    ∀ (addrs : List ℕ) (h : Heap) (bound : ℕ), bound ≤ h.next →
      FramePreserving bound h ((transformMatchupsH table h addrs).2) := by
  intro addrs
  induction addrs with
  | nil => exact fun h bound hb => framePreserving_id hb
  | cons m rest ih =>
    intro h bound hb
    have h1 := transformMatchupH_frame table h m bound hb
    have h2 := ih (transformMatchupH table h m).2 bound h1.2
    exact framePreserving_trans h1 h2

/-- C8: roster and matchup enrichment operate on copies — after running
either transformation over any list of payload addresses, every heap
cell that existed before (every object and array of the upstream
response the caller may retain, holding the original identifiers, the
original positional `starters_points` array and the original id-keyed
`players_points`) reads back exactly as before. -/
theorem C8_enrichment_no_mutation (table : PlayerTable) (h : Heap)
    (rosterAddrs matchupAddrs : List ℕ) (a : ℕ) (ha : a < h.next) :
    ((transformRostersH table h rosterAddrs).2).read a = h.read a ∧
      ((transformMatchupsH table h matchupAddrs).2).read a = h.read a :=
  ⟨(transformRostersH_frame table rosterAddrs h h.next le_rfl).1 a ha,
    (transformMatchupsH_frame table matchupAddrs h h.next le_rfl).1 a ha⟩

/-- C8 witness: on the concrete `sampleHeap`, after enriching the roster
at cell 0 and the matchup at cell 2, the original `players` array, the
original `starters` array and the original positional `starters_points`
array all read back unchanged. -/
theorem C8_enrichment_no_mutation_witness :
    (1 : ℕ) < sampleHeap.next ∧ (4 : ℕ) < sampleHeap.next ∧
      ((transformRostersH sampleTable sampleHeap [0]).2).read 1
        = some (.arr [.prim (.str "4046"), .prim (.str "CLE")]) ∧
      ((transformMatchupsH sampleTable sampleHeap [2]).2).read 3
        = some (.arr [.prim (.str "4046"), .prim (.str "5849")]) ∧
      ((transformMatchupsH sampleTable sampleHeap [2]).2).read 4
        = some (.arr [.prim (.num pts245), .prim (.num pts102)]) :=
  ⟨by decide, by decide,
    ((C8_enrichment_no_mutation sampleTable sampleHeap [0] [2] 1
      (by decide)).1).trans rfl,
    ((C8_enrichment_no_mutation sampleTable sampleHeap [0] [2] 3
      (by decide)).2).trans rfl,
    ((C8_enrichment_no_mutation sampleTable sampleHeap [0] [2] 4
      (by decide)).2).trans rfl⟩

/-- C7 counterexample: two lines the claim requires to be dropped are
forwarded by the stricter transport variant.
`{"jsonrpc":2,"method":"ping","id":1}` has a `jsonrpc` field that is the
number `2`, not the string `"2.0"`, yet the loose `==` check accepts it;
`{"jsonrpc":"2.0","method":""}` has a `method` that is present and not
in the allow-list, yet being falsy it skips the allow-list check. -/
theorem C7_transport_filter_counterexample :
    (processLine_v2 "\x7b\"jsonrpc\":2,\"method\":\"ping\",\"id\":1\x7d"
        (some (.obj [("jsonrpc", .num 2), ("method", .str "ping"),
          ("id", .num 1)]))).forwarded
      = some (.obj [("jsonrpc", .num 2), ("method", .str "ping"),
          ("id", .num 1)]) ∧
      getField [("jsonrpc", .num 2), ("method", .str "ping"),
          ("id", .num 1)] "jsonrpc" ≠ some (.str "2.0") ∧
      (processLine_v2 "\x7b\"jsonrpc\":\"2.0\",\"method\":\"\"\x7d"
          (some (.obj [("jsonrpc", .str "2.0"),
            ("method", .str "")]))).forwarded
        = some (.obj [("jsonrpc", .str "2.0"), ("method", .str "")]) ∧
      validMethods.contains "" = false := by
  refine ⟨rfl, ?_, rfl, rfl⟩
  intro h
  have h2 : (some (Json.num 2) : Option Json) = some (.str "2.0") := h
  injection h2 with h3
  exact Json.noConfusion h3

/-- C7 amended: for both transport variants, a line whose `JSON.parse`
throws is never forwarded; a parsed object whose `jsonrpc` field is not
the string `"2.0"` is dropped by the lenient variant, and one failing
the loose-equality check is dropped by the stricter variant; an object
whose `method` is a truthy string outside the allow-list is dropped by
the stricter variant; and the valid ping message is forwarded — by the
lenient variant to every registered handler.  (The stricter variant
additionally forwards values only *loosely* equal to `"2.0"` and skips
the method check for falsy methods — the two carve-outs of the
counterexample.) -/
theorem C7_transport_line_filtering :
    (∀ (handlers : List ℕ) (line : String),
        (processLine_v1 handlers line none).delivered = []) ∧
      (∀ line : String, (processLine_v2 line none).forwarded = none) ∧
      (∀ (handlers : List ℕ) (line : String)
          (fields : List (String × Json)),
        getField fields "jsonrpc" ≠ some (.str "2.0") →
        (processLine_v1 handlers line (some (.obj fields))).delivered
          = []) ∧
      (∀ (line : String) (fields : List (String × Json)),
        jsLooseEqStr20 (getField fields "jsonrpc") = false →
        (processLine_v2 line (some (.obj fields))).forwarded = none) ∧
      (∀ (line : String) (fields : List (String × Json)) (s : String),
        getField fields "method" = some (.str s) → s ≠ "" →
        s ∉ validMethods →
        (processLine_v2 line (some (.obj fields))).forwarded = none) ∧
      (∀ handlers : List ℕ,
        (processLine_v1 handlers pingLine (some pingMsg)).delivered
            = handlers.map (fun h => (h, pingMsg)) ∧
          (processLine_v2 pingLine (some pingMsg)).forwarded
            = some pingMsg) := by
  refine ⟨?_, ?_, ?_, ?_, ?_, ?_⟩
  · intro handlers line
    unfold processLine_v1
    split <;> rfl
  · intro line
    unfold processLine_v2
    split <;> rfl
  · intro handlers line fields h
    have hv : isValidJSONRPC_v1 (.obj fields) = false := by
      simp only [isValidJSONRPC_v1]
      cases hg : getField fields "jsonrpc" with
      | none => rfl
      | some j =>
        cases j with
        | str s =>
          by_cases hs : s = "2.0"
          · exact absurd (hs ▸ hg) h
          · simpa using hs
        | null => rfl
        | bool b => rfl
        | num q => rfl
        | arr l => rfl
        | obj o => rfl
    simp only [processLine_v1, hv]
    split <;> rfl
  · intro line fields h
    have hv : isValidJSONRPC_v2 (.obj fields) = false := h
    simp only [processLine_v2, hv]
    split <;> rfl
  · intro line fields s hg hs hlist
    have hm : isValidMCPMessage (.obj fields) = false := by
      simp only [isValidMCPMessage]
      rw [hg]
      have ht : jsTruthy (some (.str s)) = true := by
        simp [jsTruthy, hs]
      rw [ht]
      simp [hlist]
    simp only [processLine_v2, hm, Bool.and_false]
    split <;> rfl
  · intro handlers
    exact ⟨rfl, rfl⟩

/-- C7 amended, witness: concrete instances — an object with
`jsonrpc = 3` is dropped by both variants, and an object with a truthy
unknown method `"foo"` is dropped by the stricter variant. -/
theorem C7_transport_line_filtering_witness :
    getField [("jsonrpc", Json.num 3)] "jsonrpc" ≠ some (.str "2.0") ∧
      (processLine_v1 [0] "x"
          (some (.obj [("jsonrpc", Json.num 3)]))).delivered = [] ∧
      jsLooseEqStr20 (getField [("jsonrpc", Json.num 3)] "jsonrpc")
          = false ∧
      (processLine_v2 "x"
          (some (.obj [("jsonrpc", Json.num 3)]))).forwarded = none ∧
      getField [("jsonrpc", Json.str "2.0"), ("method", Json.str "foo")]
          "method" = some (.str "foo") ∧
      (processLine_v2 "x"
          (some (.obj [("jsonrpc", Json.str "2.0"),
            ("method", Json.str "foo")]))).forwarded = none := by
  have hne : getField [("jsonrpc", Json.num 3)] "jsonrpc"
      ≠ some (.str "2.0") := by
    intro h
    have h2 : (some (Json.num 3) : Option Json) = some (.str "2.0") := h
    injection h2 with h3
    exact Json.noConfusion h3
  refine ⟨hne, C7_transport_line_filtering.2.2.1 [0] "x" _ hne, rfl,
    C7_transport_line_filtering.2.2.2.1 "x" _ rfl, rfl,
    C7_transport_line_filtering.2.2.2.2.1 "x" _ "foo" rfl (by decide)
      (by decide)⟩

/-- C9: `get_player` is a purely local lookup: with validated arguments,
when no record of the table has the requested `player_id` the call fails
with `InvalidParams` and the message `"Player with ID <id> not found"`,
and when a record matches it is returned; in both cases the rate-limiter
state passes through unchanged and no outbound request is made. -/
theorem C9_get_player_local_lookup (table : PlayerTable)
    (args : List (String × Json)) (st : ServerState) (pid : String)
    (hargs : parseGetPlayers args = .ok pid) :
    ((table.map Prod.snd).find? (fun p => p.player_id == pid) = none →
        getPlayerTool table args st
          = (.error ⟨.InvalidParams,
              "Player with ID " ++ pid ++ " not found"⟩, st, [])) ∧
      ∀ p, (table.map Prod.snd).find? (fun p => p.player_id == pid)
          = some p →
        getPlayerTool table args st = (.ok p, st, []) := by
  constructor
  · intro h
    simp [getPlayerTool, hargs, h]
  · intro p h
    simp [getPlayerTool, hargs, h]

/-- C9 witness: on the sample table, id `"9999"` is absent — the call
fails with `InvalidParams` naming the id, state and request log
untouched — while id `"4046"` returns the Mahomes record. -/
theorem C9_get_player_local_lookup_witness :
    parseGetPlayers [("player_id", .str "9999")] = .ok "9999" ∧
      getPlayerTool sampleTable [("player_id", .str "9999")] ⟨123⟩
        = (.error ⟨.InvalidParams, "Player with ID " ++ "9999"
            ++ " not found"⟩, ⟨123⟩, []) ∧
      getPlayerTool sampleTable [("player_id", .str "4046")] ⟨123⟩
        = (.ok ⟨"4046", some "Patrick Mahomes", []⟩, ⟨123⟩, []) :=
  ⟨rfl,
    (C9_get_player_local_lookup sampleTable [("player_id", .str "9999")]
      ⟨123⟩ "9999" rfl).1 rfl,
    (C9_get_player_local_lookup sampleTable [("player_id", .str "4046")]
      ⟨123⟩ "4046" rfl).2 ⟨"4046", some "Patrick Mahomes", []⟩ rfl⟩

/-- C10: `"weekly_summary"` is in `PROMPT_LIST` (so `prompts/list`
exposes it), declared with an empty argument list (required-argument
validation always passes), yet every `prompts/get` for it fails with
`InternalError` and message
`"Failed to generate prompt: Unknown prompt: weekly_summary"`, because
`generatePrompt`'s switch only handles `"fantasy_analyzer"` and
`"tuesday_summary"`. -/
theorem C10_weekly_summary_unreachable :
    (PROMPT_LIST.map (fun p => p.name)).contains "weekly_summary"
        = true ∧
      getPromptDefinition "weekly_summary"
        = some (⟨"weekly_summary",
            "Generate a summary of the previous week's games and current standings",
            []⟩ : PromptDef) ∧
      ∀ args, getPromptHandler "weekly_summary" args
        = .error ⟨.InternalError,
            "Failed to generate prompt: Unknown prompt: weekly_summary"⟩ := by
  refine ⟨rfl, rfl, ?_⟩
  intro args
  rfl

end Sleeper
